import Mathlib

/-!
Shallow embedding of `src/degenbot/uniswap/v2_functions.py`.

Python integers are arbitrary-precision, so they are modelled as `Int`.
Python's `//` is floor division (rounding toward negative infinity) and
raises `ZeroDivisionError` on a zero divisor; it is modelled by `pyFloorDiv`
below, returning in `Except`.  `fractions.Fraction` is modelled as a pair of
integers exposing `numerator` and `denominator` (the swap formulas only read
those two attributes, and they are invariant under the gcd/sign
normalisation that `fractions.Fraction` performs).
-/

namespace Degenbot

/-- The runtime error Python raises when the divisor of `//` is zero. -/
inductive PyError where
  | ZeroDivisionError
deriving DecidableEq, Repr

/-- Python `//` on `int`: floor division, `ZeroDivisionError` on zero divisor. -/
def pyFloorDiv (a b : Int) : Except PyError Int :=
  if b = 0 then Except.error PyError.ZeroDivisionError else Except.ok (Int.fdiv a b)

/-- Model of `fractions.Fraction` as seen by the swap functions: only the
`numerator` and `denominator` attributes are read. -/
structure Fraction where
  numerator : Int
  denominator : Int
deriving DecidableEq, Repr

/-- `constant_product_calc_exact_in` from `v2_functions.py`:
`(amount_in * (fee.denominator - fee.numerator) * reserves_out) //
 (reserves_in * fee.denominator + amount_in * (fee.denominator - fee.numerator))`. -/
def constant_product_calc_exact_in (amount_in reserves_in reserves_out : Int)
    (fee : Fraction) : Except PyError Int :=
  pyFloorDiv (amount_in * (fee.denominator - fee.numerator) * reserves_out)
    (reserves_in * fee.denominator + amount_in * (fee.denominator - fee.numerator))

/-- `constant_product_calc_exact_out` from `v2_functions.py`:
`1 + (reserves_in * amount_out * fee.denominator) //
 ((reserves_out - amount_out) * (fee.denominator - fee.numerator))`. -/
def constant_product_calc_exact_out (amount_out reserves_in reserves_out : Int)
    (fee : Fraction) : Except PyError Int :=
  (pyFloorDiv (reserves_in * amount_out * fee.denominator)
    ((reserves_out - amount_out) * (fee.denominator - fee.numerator))).map
    (fun q => 1 + q)

/-! ### Helper lemmas about `pyFloorDiv` and `Int.fdiv` -/

lemma pyFloorDiv_of_ne {a b : Int} (h : b ≠ 0) :
    pyFloorDiv a b = Except.ok (a.fdiv b) := by
  unfold pyFloorDiv
  rw [if_neg h]

lemma pyFloorDiv_of_eq {a b : Int} (h : b = 0) :
    pyFloorDiv a b = Except.error PyError.ZeroDivisionError := by
  unfold pyFloorDiv
  rw [if_pos h]

lemma pyFloorDiv_error_iff (a b : Int) :
    pyFloorDiv a b = Except.error PyError.ZeroDivisionError ↔ b = 0 := by
  unfold pyFloorDiv
  split_ifs with h <;> simp [h]

lemma exact_in_def (a ri ro n d : Int) :
    constant_product_calc_exact_in a ri ro ⟨n, d⟩ =
      pyFloorDiv (a * (d - n) * ro) (ri * d + a * (d - n)) := rfl

lemma exact_out_def (a ri ro n d : Int) :
    constant_product_calc_exact_out a ri ro ⟨n, d⟩ =
      (pyFloorDiv (ri * a * d) ((ro - a) * (d - n))).map (fun q => 1 + q) := rfl

lemma fdiv_neg_of_pos_of_neg : ∀ {a b : Int}, 0 < a → b < 0 → a.fdiv b < 0
  | Int.ofNat (m + 1), Int.negSucc n, _, _ => Int.negSucc_lt_zero (m / (n + 1))
  | Int.ofNat 0, Int.negSucc _, ha, _ => absurd ha (by decide)
  | Int.negSucc m, _, ha, _ => absurd ha (lt_asymm (Int.negSucc_lt_zero m))
  | _, Int.ofNat n, _, hb => absurd hb (Int.ofNat_nonneg n).not_lt

lemma fdiv_le_fdiv_cross {a b c d : Int} (hb : 0 < b) (hd : 0 < d)
    (h : a * d ≤ c * b) : a.fdiv b ≤ c.fdiv d := by
  rw [Int.fdiv_eq_ediv _ hb.le, Int.fdiv_eq_ediv _ hd.le, Int.le_ediv_iff_mul_le hd]
  have h1 : a / b * b ≤ a := Int.ediv_mul_le a (ne_of_gt hb)
  nlinarith [h1]

/-- Shared helper: with positive reserves, a valid fee and `amount_out`
strictly above `reserves_out`, the exact-out function returns `Except.ok`
of a non-positive value (numerator positive, floor-division divisor
negative, so the quotient is at most `-1` and `1 + quotient ≤ 0`). -/
lemma exact_out_gt_reserves_ok {ao ri ro n d : Int} (hri : 0 < ri) (hro : 0 < ro)
    (hao : ro < ao) (hn : 0 ≤ n) (hnd : n < d) :
    ∃ v, constant_product_calc_exact_out ao ri ro ⟨n, d⟩ = Except.ok v ∧ v ≤ 0 := by
  have hN : 0 < ri * ao * d := mul_pos (mul_pos hri (by omega)) (by omega)
  have hD : (ro - ao) * (d - n) < 0 :=
    mul_neg_of_neg_of_pos (by omega) (by omega)
  refine ⟨1 + (ri * ao * d).fdiv ((ro - ao) * (d - n)), ?_, ?_⟩
  · rw [exact_out_def, pyFloorDiv_of_ne (ne_of_lt hD)]
    rfl
  · have := fdiv_neg_of_pos_of_neg hN hD
    omega

/-! ### Claim theorems: SwapMath -/

/-- C4: for `amount_in ≥ 0`, `reserve_in > 0`, `reserve_out ≥ 0` and a fee with
`0 ≤ numerator ≤ denominator` and `denominator > 0`, `constant_product_calc_exact_in`
returns the truncated-toward-zero quotient
`(amount_in * (d - n) * reserve_out) / (reserve_in * d + amount_in * (d - n))`,
and in particular returns `0` when `amount_in = 0`. -/
theorem exact_in_returns_truncated_quotient (a ri ro n d : Int)
    (ha : 0 ≤ a) (hri : 0 < ri) (hro : 0 ≤ ro)
    (hn : 0 ≤ n) (hnd : n ≤ d) (hd : 0 < d) :
    constant_product_calc_exact_in a ri ro ⟨n, d⟩ =
      Except.ok (Int.tdiv (a * (d - n) * ro) (ri * d + a * (d - n))) ∧
    (a = 0 → constant_product_calc_exact_in a ri ro ⟨n, d⟩ = Except.ok 0) := by
  have hf : 0 ≤ d - n := by omega
  have hD : 0 < ri * d + a * (d - n) := by
    have h1 : 0 < ri * d := mul_pos hri hd
    have h2 : 0 ≤ a * (d - n) := mul_nonneg ha hf
    omega
  have hN : 0 ≤ a * (d - n) * ro := mul_nonneg (mul_nonneg ha hf) hro
  constructor
  · rw [exact_in_def, pyFloorDiv_of_ne (ne_of_gt hD), Int.fdiv_eq_tdiv hN hD.le]
  · rintro rfl
    rw [exact_in_def, pyFloorDiv_of_ne (ne_of_gt hD)]
    simp

/-- C4 witness: the golden scenario `amount_in = 1000`, reserves `10^6/10^6`,
fee `3/1000` instantiates the theorem; the truncated quotient there is `996`. -/
theorem exact_in_returns_truncated_quotient_witness :
    constant_product_calc_exact_in 1000 1000000 1000000 ⟨3, 1000⟩ =
      Except.ok (Int.tdiv (1000 * (1000 - 3) * 1000000)
        (1000000 * 1000 + 1000 * (1000 - 3))) ∧
    ((1000 : Int) = 0 → constant_product_calc_exact_in 1000 1000000 1000000 ⟨3, 1000⟩ =
      Except.ok 0) :=
  exact_in_returns_truncated_quotient 1000 1000000 1000000 3 1000
    (by decide) (by decide) (by decide) (by decide) (by decide) (by decide)

/-- C9: with `reserve_in = 0`, a positive `amount_in`, `reserve_out ≥ 0` and a
fee with `0 ≤ numerator < denominator`, `constant_product_calc_exact_in`
returns exactly `reserve_out` and raises no error. -/
theorem exact_in_zero_reserve_in_returns_reserve_out (a ro n d : Int)
    (ha : 0 < a) (hro : 0 ≤ ro) (hn : 0 ≤ n) (hnd : n < d) :
    constant_product_calc_exact_in a 0 ro ⟨n, d⟩ = Except.ok ro := by
  have hf : 0 < d - n := by omega
  have hD : a * (d - n) ≠ 0 := ne_of_gt (mul_pos ha hf)
  have hD' : (0 : Int) * d + a * (d - n) ≠ 0 := by
    rw [zero_mul, zero_add]
    exact hD
  rw [exact_in_def, pyFloorDiv_of_ne hD']
  congr 1
  rw [zero_mul, zero_add]
  exact Int.mul_fdiv_cancel_left ro hD

/-- C9 witness: `amount_in = 1`, `reserve_in = 0`, `reserve_out = 5`,
fee `3/1000` yields exactly `5`. -/
theorem exact_in_zero_reserve_in_returns_reserve_out_witness :
    constant_product_calc_exact_in 1 0 5 ⟨3, 1000⟩ = Except.ok 5 :=
  exact_in_zero_reserve_in_returns_reserve_out 1 5 3 1000
    (by decide) (by decide) (by decide) (by decide)

/-- C8: with positive reserves, `amount_out > reserve_out` and a fee with
`0 ≤ numerator < denominator`, `constant_product_calc_exact_out` returns an
`Except.ok` value that is `≤ 0` (the floor division of a positive numerator by
a negative divisor is at most `-1`, and the `+1` cannot make it positive),
raising no error. -/
theorem exact_out_above_reserves_returns_nonpositive (ao ri ro n d : Int)
    (hri : 0 < ri) (hro : 0 < ro) (hao : ro < ao) (hn : 0 ≤ n) (hnd : n < d) :
    ∃ v, constant_product_calc_exact_out ao ri ro ⟨n, d⟩ = Except.ok v ∧ v ≤ 0 :=
  exact_out_gt_reserves_ok hri hro hao hn hnd

/-- C8 witness: `amount_out = 6 > reserve_out = 5`, `reserve_in = 5`,
fee `3/1000` returns `Except.ok (-30)`. -/
theorem exact_out_above_reserves_returns_nonpositive_witness :
    ∃ v, constant_product_calc_exact_out 6 5 5 ⟨3, 1000⟩ = Except.ok v ∧ v ≤ 0 :=
  exact_out_above_reserves_returns_nonpositive 6 5 5 3 1000
    (by decide) (by decide) (by decide) (by decide) (by decide)

/-- C2 counterexample: at `amount_out = 6 ≥ reserve_out = 5` with positive
reserves and fee `3/1000`, `constant_product_calc_exact_out` returns the value
`-30` instead of failing with any error (and no `InsufficientReserve` error
exists in the code at all). -/
theorem exact_out_insufficient_reserve_counterexample :
    constant_product_calc_exact_out 6 5 5 ⟨3, 1000⟩ = Except.ok (-30) := rfl

/-- C2 amended: for `amount_out ≥ reserve_out` with positive reserves and a fee
with `0 ≤ numerator < denominator`, the function does not raise a dedicated
`InsufficientReserve` error: at `amount_out = reserve_out` it raises Python's
`ZeroDivisionError` (the floor-division divisor is zero), and for
`amount_out > reserve_out` it returns an `Except.ok` value that is `≤ 0`. -/
theorem exact_out_insufficient_reserve_behavior (ao ri ro n d : Int)
    (hri : 0 < ri) (hro : 0 < ro) (hge : ro ≤ ao) (hn : 0 ≤ n) (hnd : n < d) :
    (ao = ro → constant_product_calc_exact_out ao ri ro ⟨n, d⟩ =
      Except.error PyError.ZeroDivisionError) ∧
    (ro < ao → ∃ v, constant_product_calc_exact_out ao ri ro ⟨n, d⟩ =
      Except.ok v ∧ v ≤ 0) := by
  constructor
  · rintro rfl
    rw [exact_out_def, pyFloorDiv_of_eq (by rw [sub_self, zero_mul])]
    rfl
  · intro h
    exact exact_out_gt_reserves_ok hri hro h hn hnd

/-- C2 witness: instantiated at `amount_out = 6`, `reserve_in = 5`,
`reserve_out = 5`, fee `3/1000`. -/
theorem exact_out_insufficient_reserve_behavior_witness :
    ((6 : Int) = 5 → constant_product_calc_exact_out 6 5 5 ⟨3, 1000⟩ =
      Except.error PyError.ZeroDivisionError) ∧
    ((5 : Int) < 6 → ∃ v, constant_product_calc_exact_out 6 5 5 ⟨3, 1000⟩ =
      Except.ok v ∧ v ≤ 0) :=
  exact_out_insufficient_reserve_behavior 6 5 5 3 1000
    (by decide) (by decide) (by decide) (by decide) (by decide)

/-- C3 counterexample: `constant_product_calc_exact_in` with `reserve_in = 0`
(`amount_in = 1`, `reserve_out = 5`, fee `3/1000`) returns the value `5`
instead of failing with any error (and no `UninitializedPool` error exists in
the code at all). -/
theorem uninitialized_pool_counterexample :
    constant_product_calc_exact_in 1 0 5 ⟨3, 1000⟩ = Except.ok 5 := rfl

/-- C3 amended: when `reserve_in = 0` or `reserve_out = 0`, neither swap
function raises a dedicated `UninitializedPool` error: each raises Python's
`ZeroDivisionError` exactly when its floor-division divisor is zero, and
otherwise returns a value. -/
theorem zero_reserve_error_characterization (a ri ro : Int) (fee : Fraction)
    (h : ri = 0 ∨ ro = 0) :
    (constant_product_calc_exact_in a ri ro fee =
        Except.error PyError.ZeroDivisionError ↔
      ri * fee.denominator + a * (fee.denominator - fee.numerator) = 0) ∧
    (constant_product_calc_exact_out a ri ro fee =
        Except.error PyError.ZeroDivisionError ↔
      (ro - a) * (fee.denominator - fee.numerator) = 0) := by
  clear h
  constructor
  · exact pyFloorDiv_error_iff _ _
  · show (pyFloorDiv _ _).map _ = _ ↔ _
    rw [← pyFloorDiv_error_iff (ri * a * fee.denominator)]
    unfold pyFloorDiv
    split_ifs <;> simp [Except.map]

/-- C3 witness: instantiated at `amount_in = 1`, `reserve_in = 0`,
`reserve_out = 5`, fee `3/1000`; neither divisor is zero there, so neither
call errors. -/
theorem zero_reserve_error_characterization_witness :
    (constant_product_calc_exact_in 1 0 5 ⟨3, 1000⟩ =
        Except.error PyError.ZeroDivisionError ↔
      (0 : Int) * 1000 + 1 * (1000 - 3) = 0) ∧
    (constant_product_calc_exact_out 1 0 5 ⟨3, 1000⟩ =
        Except.error PyError.ZeroDivisionError ↔
      ((5 : Int) - 1) * (1000 - 3) = 0) :=
  zero_reserve_error_characterization 1 0 5 ⟨3, 1000⟩ (Or.inl rfl)

/-- C1 counterexample: with `amount_in = 100`, `reserve_in = 1`,
`reserve_out = 10` and fee `3/1000`, the exact-in call yields `out = 9`, and
the exact-out inverse at the post-trade reserves
`(reserve_in + amount_in, reserve_out - out) = (101, 1)` returns `-113`,
which is strictly below the original `amount_in = 100`: the stated round trip
under-quotes. -/
theorem roundtrip_counterexample :
    constant_product_calc_exact_in 100 1 10 ⟨3, 1000⟩ = Except.ok 9 ∧
    constant_product_calc_exact_out 9 (1 + 100) (10 - 9) ⟨3, 1000⟩ =
      Except.ok (-113) ∧
    ¬ ((100 : Int) ≤ -113) := ⟨rfl, rfl, by decide⟩

/-- C1 amended: rounding safety holds in the opposite composition. For
`0 ≤ amount_out < reserve_out`, `reserve_in > 0` and a fee with
`0 ≤ numerator < denominator`, quoting the input with
`constant_product_calc_exact_out` and then swapping that quoted input with
`constant_product_calc_exact_in` (same reserves and fee) yields at least the
requested `amount_out`: the `+1` bias never under-delivers. -/
theorem exact_out_then_exact_in_ge (ao ri ro n d : Int)
    (hao : 0 ≤ ao) (hlt : ao < ro) (hri : 0 < ri) (hn : 0 ≤ n) (hnd : n < d) :
    ∃ iv ov, constant_product_calc_exact_out ao ri ro ⟨n, d⟩ = Except.ok iv ∧
      constant_product_calc_exact_in iv ri ro ⟨n, d⟩ = Except.ok ov ∧
      ao ≤ ov := by
  have hF : 0 < d - n := by omega
  have hD1 : 0 < (ro - ao) * (d - n) := mul_pos (by omega) hF
  have hN1 : 0 ≤ ri * ao * d := mul_nonneg (mul_nonneg hri.le hao) (by omega)
  set iv := 1 + (ri * ao * d).fdiv ((ro - ao) * (d - n)) with hivdef
  have hqkey : ri * ao * d < iv * ((ro - ao) * (d - n)) := by
    rw [hivdef, Int.fdiv_eq_ediv _ hD1.le, add_comm]
    exact Int.lt_ediv_add_one_mul_self _ hD1
  have hiv1 : 1 ≤ iv := by
    have h0 : 0 ≤ (ri * ao * d).fdiv ((ro - ao) * (d - n)) :=
      Int.fdiv_nonneg hN1 hD1.le
    omega
  have hD2 : 0 < ri * d + iv * (d - n) := by
    have h1 : 0 < ri * d := mul_pos hri (by omega)
    have h2 : 0 < iv * (d - n) := mul_pos (by omega) hF
    omega
  refine ⟨iv, (iv * (d - n) * ro).fdiv (ri * d + iv * (d - n)), ?_, ?_, ?_⟩
  · rw [exact_out_def, pyFloorDiv_of_ne (ne_of_gt hD1)]
    rfl
  · rw [exact_in_def, pyFloorDiv_of_ne (ne_of_gt hD2)]
  · rw [Int.fdiv_eq_ediv _ hD2.le, Int.le_ediv_iff_mul_le hD2]
    nlinarith [hqkey]

/-- C1 amended witness: at `amount_out = 1000`, reserves `10^6/10^6`,
fee `3/1000`, the quoted input buys back at least `1000`. -/
theorem exact_out_then_exact_in_ge_witness :
    ∃ iv ov, constant_product_calc_exact_out 1000 1000000 1000000 ⟨3, 1000⟩ =
      Except.ok iv ∧
      constant_product_calc_exact_in iv 1000000 1000000 ⟨3, 1000⟩ =
        Except.ok ov ∧
      (1000 : Int) ≤ ov :=
  exact_out_then_exact_in_ge 1000 1000000 1000000 3 1000
    (by decide) (by decide) (by decide) (by decide) (by decide)

/-- C6: for fixed `reserve_in > 0`, `reserve_out ≥ 0` and a valid fee
(`0 ≤ numerator ≤ denominator`, `denominator > 0`),
`constant_product_calc_exact_in` is non-decreasing in `amount_in`:
for `0 ≤ a1 ≤ a2` both calls return values and the first is `≤` the second. -/
theorem exact_in_monotone_in_amount_in (ri ro n d a1 a2 : Int)
    (hri : 0 < ri) (hro : 0 ≤ ro) (hn : 0 ≤ n) (hnd : n ≤ d) (hd : 0 < d)
    (h1 : 0 ≤ a1) (h12 : a1 ≤ a2) :
    ∃ v1 v2, constant_product_calc_exact_in a1 ri ro ⟨n, d⟩ = Except.ok v1 ∧
      constant_product_calc_exact_in a2 ri ro ⟨n, d⟩ = Except.ok v2 ∧
      v1 ≤ v2 := by
  have hF : 0 ≤ d - n := by omega
  have hrd : 0 < ri * d := mul_pos hri hd
  have hD1 : 0 < ri * d + a1 * (d - n) := by
    have := mul_nonneg h1 hF
    omega
  have hD2 : 0 < ri * d + a2 * (d - n) := by
    have := mul_nonneg (h1.trans h12) hF
    omega
  refine ⟨_, _, by rw [exact_in_def, pyFloorDiv_of_ne (ne_of_gt hD1)],
    by rw [exact_in_def, pyFloorDiv_of_ne (ne_of_gt hD2)], ?_⟩
  apply fdiv_le_fdiv_cross hD1 hD2
  nlinarith [mul_nonneg (mul_nonneg (mul_nonneg (sub_nonneg.2 h12) hF) hro) hrd.le]

/-- C6 witness: reserves `10^6/10^6`, fee `3/1000`, inputs `500 ≤ 1000`. -/
theorem exact_in_monotone_in_amount_in_witness :
    ∃ v1 v2, constant_product_calc_exact_in 500 1000000 1000000 ⟨3, 1000⟩ =
      Except.ok v1 ∧
      constant_product_calc_exact_in 1000 1000000 1000000 ⟨3, 1000⟩ =
        Except.ok v2 ∧
      v1 ≤ v2 :=
  exact_in_monotone_in_amount_in 1000000 1000000 3 1000 500 1000
    (by decide) (by decide) (by decide) (by decide) (by decide) (by decide)
    (by decide)

/-!
### AddressDeriver

Byte strings (`HexBytes`, addresses, hashes) are modelled as `List Nat`.
Python compares `bytes` lexicographically; `sorted` is a stable ascending
sort, which on any list coincides with insertion sort by `<=`.  The external
Keccak-256 primitive (`eth_utils.crypto.keccak`) is an opaque byte-string
function, taken as a parameter.  `eth_abi.packed.encode_packed` on two
`address` values is the tight concatenation of the two byte strings.
-/

/-- Python `bytes` strict lexicographic comparison (`<`). -/
def bytesLt : List Nat → List Nat → Bool
  | [], [] => false
  | [], _ :: _ => true
  | _ :: _, [] => false
  | a :: as, b :: bs =>
    if a < b then true else if b < a then false else bytesLt as bs

/-- Python `bytes` comparison `<=`. -/
def bytesLe (x y : List Nat) : Bool := ! bytesLt y x

/-- Insertion step of the stable ascending sort. -/
def pyInsert (x : List Nat) : List (List Nat) → List (List Nat)
  | [] => [x]
  | y :: ys => if bytesLe x y then x :: y :: ys else y :: pyInsert x ys

/-- Python `sorted` on a list of byte strings (stable ascending sort). -/
def pySorted : List (List Nat) → List (List Nat)
  | [] => []
  | x :: xs => pyInsert x (pySorted xs)

/-- Modelled from the spec: `create2_address` lives in `degenbot.functions`,
which is not among the sources under review.  Per spec §4.1 step 3 the pool
address is the last 20 bytes of `keccak(0xff ++ deployer ++ salt ++
init_code_hash)` (checksum formatting is a presentation-layer concern and is
not modelled). -/
def create2_address (keccak : List Nat → List Nat)
    (deployer salt init_code_hash : List Nat) : List Nat :=
  let image := keccak (0xff :: (deployer ++ salt ++ init_code_hash))
  image.drop (image.length - 20)

/-- `generate_v2_pool_address` from `v2_functions.py`: sort the token
addresses as byte strings, Keccak-hash their tight concatenation to obtain
the salt, then derive the CREATE2 address. -/
def generate_v2_pool_address (keccak : List Nat → List Nat)
    (deployer_address : List Nat) (token_addresses : List (List Nat))
    (init_hash : List Nat) : List Nat :=
  let sorted_token_addresses := pySorted token_addresses
  let salt := keccak sorted_token_addresses.flatten
  create2_address keccak deployer_address salt init_hash

lemma bytesLt_asymm : ∀ x y : List Nat, bytesLt x y = true → bytesLt y x = false
  | [], [] => by simp [bytesLt]
  | [], _ :: _ => by simp [bytesLt]
  | _ :: _, [] => by simp [bytesLt]
  | a :: as, b :: bs => by
    simp only [bytesLt]
    intro h
    by_cases hab : a < b
    · rw [if_neg (show ¬ b < a by omega), if_pos hab]
    · by_cases hba : b < a
      · rw [if_neg hab, if_pos hba] at h
        simp at h
      · rw [if_neg hab, if_neg hba] at h
        rw [if_neg hba, if_neg hab]
        exact bytesLt_asymm as bs h

lemma bytesLt_conn : ∀ x y : List Nat,
    bytesLt x y = false → bytesLt y x = false → x = y
  | [], [] => by simp
  | [], _ :: _ => by simp [bytesLt]
  | _ :: _, [] => by simp [bytesLt]
  | a :: as, b :: bs => by
    simp only [bytesLt]
    intro h1 h2
    by_cases hab : a < b
    · rw [if_pos hab] at h1
      simp at h1
    · by_cases hba : b < a
      · rw [if_pos hba] at h2
        simp at h2
      · rw [if_neg hab, if_neg hba] at h1
        rw [if_neg hba, if_neg hab] at h2
        have hia : a = b := by omega
        have hias : as = bs := bytesLt_conn as bs h1 h2
        rw [hia, hias]

lemma pySorted_pair_comm (A B : List Nat) : pySorted [A, B] = pySorted [B, A] := by
  show pyInsert A (pyInsert B []) = pyInsert B (pyInsert A [])
  simp only [pyInsert, bytesLe]
  by_cases h1 : bytesLt B A <;> by_cases h2 : bytesLt A B
  · exact absurd (bytesLt_asymm A B h2) (by simp [h1])
  · simp [h1, h2]
  · simp [h1, h2]
  · have : A = B := bytesLt_conn A B (by simp [h2]) (by simp [h1])
    simp [this]

/-- C5: `generate_v2_pool_address` is independent of the order of the two
token addresses: passing `[A, B]` or `[B, A]` (any deployer, any init-code
hash, any hash primitive) yields the same pool address. -/
theorem generate_v2_pool_address_order_independent
    (keccak : List Nat → List Nat) (deployer init_hash A B : List Nat)
    (hA : A.length = 20) (hB : B.length = 20) :
    generate_v2_pool_address keccak deployer [A, B] init_hash =
      generate_v2_pool_address keccak deployer [B, A] init_hash := by
  unfold generate_v2_pool_address
  rw [pySorted_pair_comm]

/-- C5 witness: two concrete 20-byte addresses, with the identity map standing
in for the hash primitive. -/
theorem generate_v2_pool_address_order_independent_witness :
    (List.replicate 20 1).length = 20 ∧
    (List.replicate 20 2).length = 20 ∧
    generate_v2_pool_address (fun l => l) (List.replicate 20 7)
        [List.replicate 20 1, List.replicate 20 2] (List.replicate 32 9) =
      generate_v2_pool_address (fun l => l) (List.replicate 20 7)
        [List.replicate 20 2, List.replicate 20 1] (List.replicate 32 9) :=
  ⟨by decide, by decide,
    generate_v2_pool_address_order_independent (fun l => l)
      (List.replicate 20 7) (List.replicate 32 9)
      (List.replicate 20 1) (List.replicate 20 2) (by decide) (by decide)⟩

/-!
### PathResolver

`itertools.pairwise` yields the consecutive overlapping pairs of the route.
The pool manager (`UniswapV2PoolManager.get_pool_from_tokens`) is an external
collaborator that is not among the sources under review; per spec §4.4/§6 it
is a lookup capability that either returns a pool handle or raises
`PoolNotFound` identifying the requested pair.  A raised exception propagates
out of the loop immediately, modelled by `Except`.  Token and pool-handle
types are opaque.
-/

/-- `itertools.pairwise`: successive overlapping pairs of the input. -/
def pairwise {τ : Type} : List τ → List (τ × τ)
  | [] => []
  | [_] => []
  | a :: b :: rest => (a, b) :: pairwise (b :: rest)

/-- Modelled from the spec: the not-found signal of the registry capability,
identifying the requested token pair (spec §4.4, §6, §7). -/
inductive PoolNotFound (τ : Type) where
  | mk (tokenA tokenB : τ)
deriving DecidableEq, Repr

/-- The `for` loop of `get_v2_pools_from_token_path`: look up each pair in
order, appending the pool; a raised `PoolNotFound` aborts the loop and
propagates, so no partial list escapes. -/
def resolvePairs {τ π : Type} (lookup : τ × τ → Except (PoolNotFound τ) π) :
    List (τ × τ) → Except (PoolNotFound τ) (List π)
  | [] => Except.ok []
  | p :: ps =>
    match lookup p with
    | Except.error e => Except.error e
    | Except.ok pool =>
      match resolvePairs lookup ps with
      | Except.error e => Except.error e
      | Except.ok rest => Except.ok (pool :: rest)

/-- `get_v2_pools_from_token_path` from `v2_functions.py`. -/
def get_v2_pools_from_token_path {τ π : Type} (tx_path : List τ)
    (get_pool_from_tokens : τ × τ → Except (PoolNotFound τ) π) :
    Except (PoolNotFound τ) (List π) :=
  resolvePairs get_pool_from_tokens (pairwise tx_path)

lemma resolvePairs_error_of_split {τ π : Type}
    (lookup : τ × τ → Except (PoolNotFound τ) π) (p : τ × τ)
    (post : List (τ × τ)) (e : PoolNotFound τ) (hfail : lookup p = Except.error e) :
    ∀ pre : List (τ × τ), (∀ q ∈ pre, (lookup q).isOk = true) →
      resolvePairs lookup (pre ++ p :: post) = Except.error e := by
  intro pre
  induction pre with
  | nil =>
    intro _
    simp only [List.nil_append, resolvePairs, hfail]
  | cons q qs ih =>
    intro hok
    have hq : (lookup q).isOk = true := hok q (by simp)
    show resolvePairs lookup (q :: (qs ++ p :: post)) = Except.error e
    cases hlq : lookup q with
    | error e2 =>
      rw [hlq] at hq
      simp [Except.isOk, Except.toBool] at hq
    | ok pool =>
      have hrec := ih (fun r hr => hok r (by simp [hr]))
      simp only [resolvePairs, hlq, hrec]

/-- C7: if `pairwise tx_path` splits as `pre ++ (a, b) :: post`, every lookup
in `pre` succeeds and the registry lookup of `(a, b)` fails with
`PoolNotFound` identifying `(a, b)`, then `get_v2_pools_from_token_path`
fails with that same `PoolNotFound` (no partial list is returned), and the
outcome is unchanged under any registry that agrees on `pre` and on `(a, b)`
— the lookups after the failure point are never consulted. -/
theorem path_resolution_fails_fast {τ π : Type} (tx_path : List τ)
    (lookup : τ × τ → Except (PoolNotFound τ) π)
    (pre post : List (τ × τ)) (a b : τ)
    (hsplit : pairwise tx_path = pre ++ (a, b) :: post)
    (hpre : ∀ q ∈ pre, (lookup q).isOk = true)
    (hfail : lookup (a, b) = Except.error (PoolNotFound.mk a b)) :
    get_v2_pools_from_token_path tx_path lookup =
      Except.error (PoolNotFound.mk a b) ∧
    ∀ lookup2 : τ × τ → Except (PoolNotFound τ) π,
      (∀ q ∈ pre, lookup2 q = lookup q) → lookup2 (a, b) = lookup (a, b) →
      get_v2_pools_from_token_path tx_path lookup2 =
        Except.error (PoolNotFound.mk a b) := by
  constructor
  · unfold get_v2_pools_from_token_path
    rw [hsplit]
    exact resolvePairs_error_of_split lookup (a, b) post _ hfail pre hpre
  · intro lookup2 hagree hagreefail
    unfold get_v2_pools_from_token_path
    rw [hsplit]
    refine resolvePairs_error_of_split lookup2 (a, b) post _ ?_ pre ?_
    · rw [hagreefail, hfail]
    · intro q hq
      rw [hagree q hq]
      exact hpre q hq

/-- C7 witness: route `[1, 2, 3]` with a registry that resolves `(1, 2)` but
not `(2, 3)`. -/
theorem path_resolution_fails_fast_witness :
    get_v2_pools_from_token_path [1, 2, 3]
        (fun p : Nat × Nat =>
          if p.1 = 2 then Except.error (PoolNotFound.mk 2 3)
          else Except.ok (0 : Nat)) =
      Except.error (PoolNotFound.mk 2 3) ∧
    ∀ lookup2 : Nat × Nat → Except (PoolNotFound Nat) Nat,
      (∀ q ∈ [((1 : Nat), (2 : Nat))],
        lookup2 q = (fun p : Nat × Nat =>
          if p.1 = 2 then Except.error (PoolNotFound.mk 2 3)
          else Except.ok (0 : Nat)) q) →
      lookup2 (2, 3) = (fun p : Nat × Nat =>
        if p.1 = 2 then Except.error (PoolNotFound.mk 2 3)
        else Except.ok (0 : Nat)) (2, 3) →
      get_v2_pools_from_token_path [1, 2, 3] lookup2 =
        Except.error (PoolNotFound.mk 2 3) :=
  path_resolution_fails_fast [1, 2, 3]
    (fun p : Nat × Nat =>
      if p.1 = 2 then Except.error (PoolNotFound.mk 2 3)
      else Except.ok (0 : Nat))
    [(1, 2)] [] 2 3 rfl (by decide) rfl

/-- C10: a route with fewer than two addresses resolves to the empty pool
list for every registry — in particular for one whose every lookup fails —
so no lookup is performed and no error is raised. -/
theorem short_route_returns_empty {τ π : Type} (tx_path : List τ)
    (lookup : τ × τ → Except (PoolNotFound τ) π)
    (hlen : tx_path.length < 2) :
    get_v2_pools_from_token_path tx_path lookup = Except.ok [] := by
  rcases tx_path with _ | ⟨t, _ | ⟨u, rest⟩⟩
  · rfl
  · rfl
  · simp only [List.length_cons] at hlen
    omega

/-- C10 witness: the one-token route `[7]` with an always-failing registry
still returns the empty list. -/
theorem short_route_returns_empty_witness :
    get_v2_pools_from_token_path [(7 : Nat)]
        (fun _ : Nat × Nat => (Except.error (PoolNotFound.mk 0 0) :
          Except (PoolNotFound Nat) Nat)) =
      Except.ok [] :=
  short_route_returns_empty [(7 : Nat)] _ (by decide)

end Degenbot
